import Mathlib

/-!
Verification of the Nova/J.A.R.V.I.S HUD renderer (files `nov.py` and `nova.py`).

Shallow embedding conventions:
* Python floats are modelled as exact rationals (`ℚ`); all constants in the
  source (`0.0075`, `0.48`, `0.42`, …) are exactly representable.
* Python `x % m` on floats is `pymod x m = x - m * ⌊x / m⌋` (result has the
  sign of `m`); Python `int(x)` truncates toward zero (`pytrunc`).
* Qt drawing calls are reified as an inductive `Prim` of draw primitives.
  An orbit dot is recorded in polar coordinates `(angleTurns, dist)` around
  the stored center — its Cartesian position is
  `(cx + cos(2π·angleTurns)·dist, cy + sin(2π·angleTurns)·dist)`, fully
  determined by the recorded fields, so the trigonometric evaluation is
  left to the rendering backend.
* Stateful Qt widgets become explicit state records with pure update
  functions; the stats provider (psutil) and the random/os-clock fallback
  generators are inputs to `sampleStats`, since they are external effects.
-/

/-- Source helper `clamp(v, lo, hi) = max(lo, min(hi, v))` (`nov.py` line 21). -/
def clamp (v lo hi : ℚ) : ℚ := max lo (min hi v)

/-- Source helper `smoothstep(edge0, edge1, x)` (`nov.py` line 24). -/
def smoothstep (edge0 edge1 x : ℚ) : ℚ :=
  let t := clamp ((x - edge0) / (edge1 - edge0)) 0 1
  t * t * (3 - 2 * t)

/-- Python float modulo: `x % m = x - m*⌊x/m⌋` (sign follows `m`). -/
def pymod (x m : ℚ) : ℚ := x - m * ⌊x / m⌋

/-- Python `int()` on a float: truncation toward zero. -/
def pytrunc (q : ℚ) : ℤ := if 0 ≤ q then ⌊q⌋ else ⌈q⌉

/-- An RGBA color as passed to `QColor(r, g, b, a)`. -/
structure Color where
  r : ℤ
  g : ℤ
  b : ℤ
  a : ℤ
deriving DecidableEq, Repr

/-- State of one `NeonBar` gauge (the spec's GaugeBar): stored value,
style string and unit, as set in `NeonBar.__init__`. -/
structure GaugeState where
  value : ℚ
  style : String
  unit : String
deriving DecidableEq, Repr

/-- `NeonBar.setValue(v)` (`nov.py` lines 44-46, `nova.py` 94-96):
stores `clamp(float(v), 0.0, 100.0)` and requests a repaint. -/
def NeonBar.setValue (v : ℚ) (s : GaugeState) : GaugeState :=
  { s with value := clamp v 0 100 }

/-- Gradient stops chosen by `NeonBar.paintEvent` from the style string
(`nov.py` lines 73-85).  The spec names the styles spectrum/magenta/
emerald/azure; the source strings are  rainbow/pink/green/else. -/
def gradStops (style : String) : List (ℚ × Color) :=
  if style = "rainbow" then
    [(0, ⟨30, 220, 140, 255⟩), (0.5, ⟨255, 200, 60, 255⟩), (1, ⟨255, 90, 80, 255⟩)]
  else if style = "pink" then
    [(0, ⟨255, 100, 220, 255⟩), (1, ⟨200, 50, 255, 255⟩)]
  else if style = "green" then
    [(0, ⟨40, 220, 120, 255⟩), (1, ⟨20, 160, 100, 255⟩)]
  else
    [(0, ⟨80, 200, 255, 255⟩), (1, ⟨150, 120, 255, 255⟩)]

/-- The fill rectangle and its linear gradient, as built by
`NeonBar.paintEvent` (`nov.py` lines 70-72): the fill starts at the track's
top-left corner, has width `track_width * value/100`, height 14, and the
gradient runs from `fill.topLeft()` to `fill.topRight()`. -/
structure FillSpec where
  x : ℚ
  y : ℚ
  w : ℚ
  h : ℚ
  gradFrom : ℚ × ℚ
  gradTo : ℚ × ℚ
  stops : List (ℚ × Color)
deriving DecidableEq, Repr

/-- The fill-and-gradient part of `NeonBar.paintEvent` (`nov.py` 70-88),
given the track rectangle's origin and width and the gauge state. -/
def NeonBar.fillSpec (barX barY trackW : ℚ) (s : GaugeState) : FillSpec :=
  let w := trackW * (s.value / 100)
  { x := barX, y := barY, w := w, h := 14
    gradFrom := (barX, barY)
    gradTo := (barX + w, barY)
    stops := gradStops s.style }

/-- Draw primitives emitted by the ring field.  `arc` records the circle
(center, radius), pen width, color, and the two Qt angle arguments passed
to `drawArc` in 1/16-degree units (`int(-start*16)`, `int(-span*16)`).
`dot` records a filled ellipse of radius `dotR` at polar position
`(angleTurns, dist)` around `(cx, cy)`.  `glow` is the radial background
gradient, `text` a centered label. -/
inductive Prim where
  | glow (cx cy outerR : ℚ)
  | arc (cx cy radius penW : ℚ) (color : Color) (startA spanA : ℤ)
  | dot (cx cy angleTurns dist dotR : ℚ) (color : Color)
  | text (s : String)
deriving DecidableEq, Repr

/-- `AnimatedRings._draw_ring` (`nov.py` lines 184-207, `nova.py` 174-185):
two arcs (start `(base+i*0.48)*360°`, span 200° resp. 120°, converted to Qt
1/16-degree integers) followed by 36 orbit dots at fraction
`t = (k/36 + base*0.08) % 1`, distance `radius - width*1.6`, fixed color
`(80,220,255)` with alpha `int(80*smoothstep(0,1,1-|0.5-t|*2)) + 40`. -/
def drawRing (phase cx cy radius width offset : ℚ) (color : Color) : List Prim :=
  let base := pymod (phase + offset) 1
  let arcs := (List.range 2).map (fun (i : ℕ) =>
    let start := (base + (i : ℚ) * 0.48) * 360
    let span : ℚ := if i = 0 then 200 else 120
    Prim.arc cx cy radius width color (pytrunc (-start * 16)) (pytrunc (-span * 16)))
  let dots := (List.range 36).map (fun (k : ℕ) =>
    let t := pymod ((k : ℚ) / 36 + base * 0.08) 1
    let d := radius - width * 1.6
    let a := pytrunc (80 * smoothstep 0 1 (1 - |0.5 - t| * 2)) + 40
    Prim.dot cx cy t d 2.2 ⟨80, 220, 255, a⟩)
  arcs ++ dots

/-- One entry of the ring list built in `AnimatedRings.paintEvent`:
radius, stroke width, phase offset, color. -/
structure RingCfg where
  radius : ℚ
  width : ℚ
  offset : ℚ
  color : Color
deriving DecidableEq, Repr

/-- The fixed five-ring list of `AnimatedRings.paintEvent`
(`nov.py` lines 166-172), parametrized by the computed base radius. -/
def ringSpecs (radius : ℚ) : List RingCfg :=
  [⟨radius * 1.02, 9, 0, ⟨80, 220, 255, 220⟩⟩,
   ⟨radius * 0.86, 6, 0.19, ⟨255, 160, 90, 210⟩⟩,
   ⟨radius * 0.72, 4, 0.36, ⟨180, 120, 255, 200⟩⟩,
   ⟨radius * 0.59, 3, 0.54, ⟨100, 220, 200, 200⟩⟩,
   ⟨radius * 0.46, 2.2, 0.72, ⟨255, 110, 200, 180⟩⟩]

/-- `AnimatedRings.paintEvent` (`nov.py` lines 153-207) as a pure function
of the phase and the viewport: background glow, the five rings, then the
two centered text labels.  (The integer rounding of `QRect.center()` is
abstracted into the exact center `w/2, h/2`; no claim depends on it.) -/
def paintRings (phase w h : ℚ) : List Prim :=
  let cx := w / 2
  let cy := h / 2
  let radius := min w h * 0.42
  Prim.glow cx cy (radius * 1.8) ::
    ((ringSpecs radius).flatMap
      (fun c => drawRing phase cx cy c.radius c.width c.offset c.color)
     ++ [Prim.text "NOVA", Prim.text "ONLINE"])

/-- The mutable state of the `AnimatedRings` widget: its phase and its
current viewport size. -/
structure AnimatedRingsState where
  phase : ℚ
  w : ℚ
  h : ℚ
deriving DecidableEq, Repr

/-- A call of `AnimatedRings.paintEvent` as a state transformer: it emits
the primitive list and leaves the widget state untouched (the method reads
`self.phase` and `self.rect()` and writes nothing). -/
def AnimatedRings.paintCall (s : AnimatedRingsState) : List Prim × AnimatedRingsState :=
  (paintRings s.phase s.w s.h, s)

/-- `NovaHUD.animate` (`nov.py` lines 280-282, `nova.py` 259-261):
one render tick, `phase = (phase + 0.0075) % 1.0`. -/
def animate (p : ℚ) : ℚ := pymod (p + 0.0075) 1

/-- The phase after `n` render ticks, starting from `0.0` as set in
`AnimatedRings.__init__`. -/
def phaseAfter : ℕ → ℚ
  | 0 => 0
  | n + 1 => animate (phaseAfter n)

/-- The two network throughput readouts, in the MB/s text labels. -/
structure NetDisplay where
  up : ℚ
  down : ℚ
deriving DecidableEq, Repr

/-- The byte-counter part of `NovaHUD.sampleStats` (`nov.py` lines 355-363):
given the previous counters (`self.last_bytes`, `none` before the first
sample), the fresh counters and the current display, produce the new
display and the new `last_bytes`.  When a previous sample exists the code
shows `(now - last) / 1024.0 / 1024.0` per direction — it never divides by
elapsed time; with no previous sample the display is left unchanged. -/
def netSample (last : Option (ℤ × ℤ)) (nowb : ℤ × ℤ) (disp : NetDisplay) :
    NetDisplay × Option (ℤ × ℤ) :=
  match last with
  | some lb =>
      (⟨((nowb.1 - lb.1 : ℤ) : ℚ) / 1024 / 1024,
        ((nowb.2 - lb.2 : ℤ) : ℚ) / 1024 / 1024⟩, some nowb)
  | none => (disp, some nowb)

/-- The throughput law exactly as the spec words it (§4.4): bytes delta
divided by the elapsed seconds and by 1,048,576.  Stated only to be
compared against `netSample`; it is not code of the repository. -/
def specThroughputMBps (deltaBytes : ℤ) (elapsedSeconds : ℚ) : ℚ :=
  (deltaBytes : ℚ) / elapsedSeconds / 1048576

/-- Outcome of each external (psutil) call made by `sampleStats`.
`Except.error` is the call raising; `Option` inside marks the source
returning no usable reading (empty temperature dict, no battery). -/
structure ProviderResult where
  cpu : Except Unit ℚ
  temp : Except Unit (Option ℚ)
  battery : Except Unit (Option ℚ)
  mem : Except Unit ℚ
  disk : Except Unit ℚ
  netio : Except Unit (ℤ × ℤ)

/-- The synthetic fallback values the code substitutes on a failed or
missing reading (`random.uniform` / sine-of-wall-clock expressions);
external effects, hence inputs of the embedding. -/
structure Fallbacks where
  cpu : ℚ
  temp : ℚ
  batt : ℚ
  mem : ℚ
  disk : ℚ

/-- The displayed HUD state touched by `sampleStats`: the five gauge
values, the two throughput readouts and the saved byte counters. -/
structure HudState where
  cpuUtil : ℚ
  cpuTemp : ℚ
  battery : ℚ
  mem : ℚ
  disk : ℚ
  netUp : ℚ
  netDown : ℚ
  lastBytes : Option (ℤ × ℤ)

/-- Value used when an `Except` call raised. -/
def exceptD {α : Type} (fb : α) : Except Unit α → α
  | .ok a => a
  | .error _ => fb

/-- `NovaHUD.sampleStats` of `nov.py` (lines 290-365): every failed or
missing reading falls back to its synthetic value, each gauge is then set
through `setValue`'s clamp; the battery gauge stores the pseudo-temperature
`clamp(60 + batt/100*20, 0, 100)`; the network branch keeps the previous
display and counters if `net_io_counters` raises. -/
def sampleStats (pr : ProviderResult) (fb : Fallbacks) (s : HudState) : HudState :=
  let cpu := exceptD fb.cpu pr.cpu
  let temp_c := match pr.temp with
    | .ok (some t) => t
    | .ok none => fb.temp
    | .error _ => fb.temp
  let batt := match pr.battery with
    | .ok (some b) => b
    | .ok none => fb.batt
    | .error _ => fb.batt
  let pseudo := 60 + batt / 100 * 20
  let memv := exceptD fb.mem pr.mem
  let diskv := exceptD fb.disk pr.disk
  let net := match pr.netio with
    | .ok nowb => netSample s.lastBytes nowb ⟨s.netUp, s.netDown⟩
    | .error _ => (⟨s.netUp, s.netDown⟩, s.lastBytes)
  { cpuUtil := clamp cpu 0 100
    cpuTemp := clamp (clamp (temp_c / 100 * 100) 0 100) 0 100
    battery := clamp (clamp pseudo 0 100) 0 100
    mem := clamp memv 0 100
    disk := clamp diskv 0 100
    netUp := net.1.up
    netDown := net.1.down
    lastBytes := net.2 }

/-- `NovaHUD.sampleStats` of `nova.py` (lines 266-315): identical to the
`nov.py` version except the battery line, which stores
`clamp(batt_pct, 0, 100)` directly — no pseudo-temperature formula. -/
def sampleStatsNova (pr : ProviderResult) (fb : Fallbacks) (s : HudState) : HudState :=
  let cpu := exceptD fb.cpu pr.cpu
  let temp_c := match pr.temp with
    | .ok (some t) => t
    | .ok none => fb.temp
    | .error _ => fb.temp
  let batt := match pr.battery with
    | .ok (some b) => b
    | .ok none => fb.batt
    | .error _ => fb.batt
  let memv := exceptD fb.mem pr.mem
  let diskv := exceptD fb.disk pr.disk
  let net := match pr.netio with
    | .ok nowb => netSample s.lastBytes nowb ⟨s.netUp, s.netDown⟩
    | .error _ => (⟨s.netUp, s.netDown⟩, s.lastBytes)
  { cpuUtil := clamp cpu 0 100
    cpuTemp := clamp (clamp (temp_c / 100 * 100) 0 100) 0 100
    battery := clamp (clamp batt 0 100) 0 100
    mem := clamp memv 0 100
    disk := clamp diskv 0 100
    netUp := net.1.up
    netDown := net.1.down
    lastBytes := net.2 }

/-- The orbit-dot alpha as the source computes it:
`int(80 * smoothstep(0,1,1-|0.5-t|*2)) + 40`. -/
def dotAlpha (t : ℚ) : ℤ := pytrunc (80 * smoothstep 0 1 (1 - |0.5 - t| * 2)) + 40

/-- Recognizer for arc primitives. -/
def Prim.isArc : Prim → Bool
  | .arc .. => true
  | _ => false

/-- Recognizer for orbit-dot primitives. -/
def Prim.isDot : Prim → Bool
  | .dot .. => true
  | _ => false

/-- The RGB triple of an orbit-dot primitive, `none` for anything else. -/
def Prim.dotRGB : Prim → Option (ℤ × ℤ × ℤ)
  | .dot _ _ _ _ _ col => some (col.r, col.g, col.b)
  | _ => none

/-! ### Shared helper lemmas -/

theorem pymod_one_fract (x : ℚ) : pymod x 1 = Int.fract x := by
  rw [pymod, Int.fract, div_one, one_mul]

theorem fract_absorb (a b : ℚ) : Int.fract (Int.fract a + b) = Int.fract (a + b) := by
  have h : a + b = (Int.fract a + b) + (⌊a⌋ : ℚ) := by
    rw [Int.fract]; ring
  rw [h, Int.fract_add_int]

theorem clamp_lo_le (v lo hi : ℚ) : lo ≤ clamp v lo hi := le_max_left _ _

theorem clamp_le_hi (v lo hi : ℚ) (h : lo ≤ hi) : clamp v lo hi ≤ hi :=
  max_le h (min_le_left _ _)

theorem clamp_of_mem (v lo hi : ℚ) (h1 : lo ≤ v) (h2 : v ≤ hi) : clamp v lo hi = v := by
  rw [clamp, min_eq_right h2, max_eq_right h1]

theorem clamp_idem (v lo hi : ℚ) (h : lo ≤ hi) :
    clamp (clamp v lo hi) lo hi = clamp v lo hi :=
  clamp_of_mem _ _ _ (clamp_lo_le _ _ _) (clamp_le_hi _ _ _ h)

theorem smoothstep01_bounds (x : ℚ) : 0 ≤ smoothstep 0 1 x ∧ smoothstep 0 1 x ≤ 1 := by
  rw [smoothstep]
  have h1 : (0 : ℚ) ≤ clamp ((x - 0) / (1 - 0)) 0 1 := clamp_lo_le _ _ _
  have h2 : clamp ((x - 0) / (1 - 0)) 0 1 ≤ 1 := clamp_le_hi _ _ _ (by norm_num)
  refine ⟨by nlinarith, by nlinarith [sq_nonneg (1 - clamp ((x - 0) / (1 - 0)) 0 1)]⟩

theorem pytrunc_bounds (q hi : ℚ) (h0 : 0 ≤ q) (hh : q ≤ hi) (n : ℤ) (hn : (n : ℚ) = hi) :
    0 ≤ pytrunc q ∧ pytrunc q ≤ n := by
  rw [pytrunc, if_pos h0]
  refine ⟨Int.floor_nonneg.mpr h0, ?_⟩
  have : ⌊q⌋ ≤ ⌊(n : ℚ)⌋ := Int.floor_le_floor (by rw [hn]; exact hh)
  simpa using this

theorem dotAlpha_bounds (t : ℚ) : 40 ≤ dotAlpha t ∧ dotAlpha t ≤ 120 := by
  have hs := smoothstep01_bounds (1 - |0.5 - t| * 2)
  have hb := pytrunc_bounds (80 * smoothstep 0 1 (1 - |0.5 - t| * 2)) 80
    (by nlinarith [hs.1]) (by nlinarith [hs.2]) 80 (by norm_num)
  rw [dotAlpha]
  omega

/-! ### C1 : the animation phase law -/

theorem phase_fract (n : ℕ) : phaseAfter n = Int.fract ((n : ℚ) * 0.0075) := by
  induction n with
  | zero => simp [phaseAfter, Int.fract]
  | succ k ih =>
      rw [phaseAfter, animate, pymod_one_fract, ih, fract_absorb]
      congr 1
      push_cast
      ring

/-- C1: starting from phase `0.0`, after `N` render ticks of `NovaHUD.animate`
(each adding `0.0075` and wrapping with Python float modulo `% 1.0`) the
phase equals `(N * 0.0075) % 1.0`, and after every tick the phase lies in
`[0, 1)`. -/
theorem phase_after_ticks (N : ℕ) :
    phaseAfter N = pymod ((N : ℚ) * 0.0075) 1 ∧
    0 ≤ phaseAfter N ∧ phaseAfter N < 1 := by
  rw [pymod_one_fract, phase_fract]
  exact ⟨rfl, Int.fract_nonneg _, Int.fract_lt_one _⟩

/-! ### C2 : setValue clamps and preserves the gauge invariant -/

/-- C2: for every prior gauge state and every `v`, `NeonBar.setValue v`
stores exactly `clamp v 0 100`; for `v ∈ [0, 100]` the stored value read
back by the renderer equals `v`; and the stored value always lies in
`[0, 100]` afterwards, whatever the prior state held. -/
theorem setValue_clamps (s : GaugeState) (v : ℚ) :
    (NeonBar.setValue v s).value = clamp v 0 100 ∧
    (0 ≤ v → v ≤ 100 → (NeonBar.setValue v s).value = v) ∧
    0 ≤ (NeonBar.setValue v s).value ∧ (NeonBar.setValue v s).value ≤ 100 :=
  ⟨rfl,
   fun h1 h2 => clamp_of_mem v 0 100 h1 h2,
   clamp_lo_le v 0 100,
   clamp_le_hi v 0 100 (by norm_num)⟩

unseal Rat.add Rat.sub Rat.mul Rat.inv Rat.ofScientific in
/-- Witness for C2 at `v = 65` from a prior value `30`. -/
theorem setValue_clamps_witness :
    (NeonBar.setValue 65 ⟨30, "rainbow", ""⟩).value = 65 :=
  (setValue_clamps ⟨30, "rainbow", ""⟩ 65).2.1 (by decide) (by decide)

/-! ### C8 : rendering the ring field is deterministic and stateless -/

/-- C8: for a fixed widget state (phase and viewport), two successive calls
of `AnimatedRings.paintCall` emit identical primitive sequences and the
call leaves the widget state unchanged — rendering is a pure function of
`(phase, viewport)` with no hidden randomness. -/
theorem ringfield_deterministic (s : AnimatedRingsState) :
    (AnimatedRings.paintCall s).2 = s ∧
    (AnimatedRings.paintCall ((AnimatedRings.paintCall s).2)).1 =
      (AnimatedRings.paintCall s).1 ∧
    (AnimatedRings.paintCall s).1 = paintRings s.phase s.w s.h :=
  ⟨rfl, rfl, rfl⟩

/-! ### C3 : two arcs per ring, fixed sweeps and offset -/

/-- C3: for every ring of the fixed five-ring list and every global phase,
`AnimatedRings._draw_ring` emits exactly two arc primitives, both on the
ring's circle with the ring's color and stroke width: arc 0 starts at
angle `local_phase*360°` with a 200° sweep and arc 1 at
`(local_phase+0.48)*360°` with a 120° sweep (each passed to Qt as
`int(-start*16)`, `int(-span*16)`), where
`local_phase = (phase + offset) % 1.0`; the constants 200°, 120° and 0.48
are the same for every ring index. -/
theorem ring_arcs_spec (radius phase cx cy : ℚ) (c : RingCfg)
    (hc : c ∈ ringSpecs radius) :
    (drawRing phase cx cy c.radius c.width c.offset c.color).take 2 =
      [Prim.arc cx cy c.radius c.width c.color
         (pytrunc (-(pymod (phase + c.offset) 1 * 360) * 16))
         (pytrunc (-(200 : ℚ) * 16)),
       Prim.arc cx cy c.radius c.width c.color
         (pytrunc (-((pymod (phase + c.offset) 1 + 0.48) * 360) * 16))
         (pytrunc (-(120 : ℚ) * 16))] ∧
    ((drawRing phase cx cy c.radius c.width c.offset c.color).countP Prim.isArc) = 2 := by
  constructor
  · simp [drawRing, List.range_succ]
  · simp [drawRing, List.countP_append, List.countP_map, Prim.isArc, List.range_succ]

unseal Rat.add Rat.sub Rat.mul Rat.inv Rat.ofScientific in
/-- Witness for C3 on the outermost ring (radius 100, phase 0): arc 0
starts at Qt angle 0 with sweep `-3200` (200°), arc 1 at `-2764`
(0.48·360·16 truncated) with sweep `-1920` (120°). -/
theorem ring_arcs_spec_witness :
    (drawRing 0 0 0 102 9 0 ⟨80, 220, 255, 220⟩).take 2 =
      [Prim.arc 0 0 102 9 ⟨80, 220, 255, 220⟩ 0 (-3200),
       Prim.arc 0 0 102 9 ⟨80, 220, 255, 220⟩ (-2764) (-1920)] ∧
    ((drawRing 0 0 0 102 9 0 ⟨80, 220, 255, 220⟩).countP Prim.isArc) = 2 := by
  have h := ring_arcs_spec 100 0 0 0 ⟨102, 9, 0, ⟨80, 220, 255, 220⟩⟩ (by decide)
  revert h
  decide

/-! ### C4 : orbit dot positions and the pulse opacity law -/

unseal Rat.add Rat.sub Rat.mul Rat.inv Rat.ofScientific in
/-- Counterexample to C4 as stated: at phase 0, ring offset 0, the dot of
index `k = 1` (fraction `t = 1/36`) is drawn with integer opacity 40
(the code truncates `80*smoothstep` with `int()` before adding 40), while
the claim's formula `40 + 80*smoothstep(0,1,1-|0.5-t|*2)` equals
`40 + 520/729`, which is not 40. -/
theorem orbit_dot_opacity_claim_false :
    (drawRing 0 0 0 102 9 0 ⟨80, 220, 255, 220⟩)[2 + 1]? =
      some (Prim.dot 0 0 (1/36) (102 - 9 * 1.6) 2.2 ⟨80, 220, 255, 40⟩) ∧
    ((40 : ℚ) ≠ 40 + 80 * smoothstep 0 1 (1 - |0.5 - 1/36| * 2)) := by
  decide

unseal Rat.add Rat.sub Rat.mul Rat.inv Rat.ofScientific in
/-- C4 (amended): every orbit dot `k < 36` of every ring sits at fraction
`t = (k/36 + local_phase*0.08) % 1.0` on the circle of radius
`ring.radius - 1.6*stroke_width` and is drawn with opacity
`int(80*smoothstep(0,1,1-|0.5-t|*2)) + 40` — the truncated form of the
claimed law; this opacity is exactly 120 at `t = 1/2`, exactly 40 at
`t = 0` and at the near-seam fraction `t = 35/36`, and always lies in
`[40, 120]`. -/
theorem orbit_dots_spec (radius phase cx cy : ℚ) (c : RingCfg)
    (hc : c ∈ ringSpecs radius) (k : ℕ) (hk : k < 36) :
    (drawRing phase cx cy c.radius c.width c.offset c.color)[2 + k]? =
      some (Prim.dot cx cy
        (pymod ((k : ℚ) / 36 + pymod (phase + c.offset) 1 * 0.08) 1)
        (c.radius - c.width * 1.6) 2.2
        ⟨80, 220, 255,
         dotAlpha (pymod ((k : ℚ) / 36 + pymod (phase + c.offset) 1 * 0.08) 1)⟩) ∧
    dotAlpha (1/2) = 120 ∧ dotAlpha 0 = 40 ∧ dotAlpha (35/36) = 40 ∧
    (∀ u : ℚ, 40 ≤ dotAlpha u ∧ dotAlpha u ≤ 120) := by
  refine ⟨?_, by decide, by decide, by decide, dotAlpha_bounds⟩
  rw [drawRing]
  rw [List.getElem?_append_right (by simp only [List.length_map, List.length_range]; omega)]
  simp only [List.length_map, List.length_range, Nat.add_sub_cancel_left]
  rw [List.getElem?_map, List.getElem?_range hk]
  rfl

unseal Rat.add Rat.sub Rat.mul Rat.inv Rat.ofScientific in
/-- Witness for the amended C4 on the outermost ring at phase 0, dot 0:
the dot sits at fraction 0, distance `102 - 14.4`, with opacity 40; and
the opacity law peaks at 120 for `t = 1/2`. -/
theorem orbit_dots_spec_witness :
    (drawRing 0 0 0 102 9 0 ⟨80, 220, 255, 220⟩)[2 + 0]? =
      some (Prim.dot 0 0 0 (102 - 9 * 1.6) 2.2 ⟨80, 220, 255, 40⟩) ∧
    dotAlpha (1/2) = 120 := by
  have h := orbit_dots_spec 100 0 0 0 ⟨102, 9, 0, ⟨80, 220, 255, 220⟩⟩ (by decide) 0
    (by decide)
  refine ⟨?_, h.2.1⟩
  have h1 := h.1
  revert h1
  decide

/-! ### C10 : orbit dots are always cyan, whatever the ring color -/

/-- C10: every orbit dot emitted by `AnimatedRings._draw_ring` for any
ring of the five-ring list carries the fixed RGB `(80, 220, 255)` — only
its alpha varies — and the emitted dot primitives do not depend on the
ring's configured color at all. -/
theorem orbit_dot_color (radius phase cx cy : ℚ) (c : RingCfg)
    (hc : c ∈ ringSpecs radius) :
    (∀ pr ∈ drawRing phase cx cy c.radius c.width c.offset c.color,
       pr.dotRGB = none ∨ pr.dotRGB = some (80, 220, 255)) ∧
    (∀ c2 : Color,
       (drawRing phase cx cy c.radius c.width c.offset c.color).filter Prim.isDot =
       (drawRing phase cx cy c.radius c.width c.offset c2).filter Prim.isDot) := by
  constructor
  · intro pr hpr
    rw [drawRing] at hpr
    rcases List.mem_append.mp hpr with h | h
    · rcases List.mem_map.mp h with ⟨i, _, rfl⟩
      left; rfl
    · rcases List.mem_map.mp h with ⟨k, _, rfl⟩
      right; rfl
  · intro c2
    simp [drawRing, List.filter_append, List.filter_map, Function.comp_def, Prim.isDot,
      List.range_succ, List.filter_true]

unseal Rat.add Rat.sub Rat.mul Rat.inv Rat.ofScientific in
/-- Witness for C10: the outer cyan ring and the orange ring color produce
the identical orbit-dot primitive list. -/
theorem orbit_dot_color_witness :
    (drawRing 0 0 0 102 9 0 ⟨80, 220, 255, 220⟩).filter Prim.isDot =
    (drawRing 0 0 0 102 9 0 ⟨255, 160, 90, 210⟩).filter Prim.isDot :=
  (orbit_dot_color 100 0 0 0 ⟨102, 9, 0, ⟨80, 220, 255, 220⟩⟩ (by decide)).2
    ⟨255, 160, 90, 210⟩

/-! ### C5 : gauge fill width and gradient stops -/

/-- C5: for every value `v ∈ [0, 100]` and every style, the fill built by
`NeonBar.paintEvent` is a rectangle of width `track_width * v/100` — zero
at `v = 0` and the full track at `v = 100` — whose linear gradient runs
horizontally from the fill's top-left to its top-right corner, with stops
rainbow (spectrum) `0→(30,220,140), 0.5→(255,200,60), 1→(255,90,80)`;
pink (magenta) `0→(255,100,220), 1→(200,50,255)`; green (emerald)
`0→(40,220,120), 1→(20,160,100)`; and for any other style string the
azure fallback `0→(80,200,255), 1→(150,120,255)`. -/
theorem gauge_fill_spec (barX barY trackW v : ℚ) (style unit : String)
    (h0 : 0 ≤ v) (h100 : v ≤ 100) :
    (NeonBar.fillSpec barX barY trackW ⟨v, style, unit⟩).w = trackW * v / 100 ∧
    (v = 0 → (NeonBar.fillSpec barX barY trackW ⟨v, style, unit⟩).w = 0) ∧
    (v = 100 → (NeonBar.fillSpec barX barY trackW ⟨v, style, unit⟩).w = trackW) ∧
    (NeonBar.fillSpec barX barY trackW ⟨v, style, unit⟩).gradFrom = (barX, barY) ∧
    (NeonBar.fillSpec barX barY trackW ⟨v, style, unit⟩).gradTo =
      (barX + trackW * v / 100, barY) ∧
    (NeonBar.fillSpec barX barY trackW ⟨v, style, unit⟩).stops = gradStops style ∧
    gradStops "rainbow" =
      [(0, ⟨30, 220, 140, 255⟩), (0.5, ⟨255, 200, 60, 255⟩), (1, ⟨255, 90, 80, 255⟩)] ∧
    gradStops "pink" = [(0, ⟨255, 100, 220, 255⟩), (1, ⟨200, 50, 255, 255⟩)] ∧
    gradStops "green" = [(0, ⟨40, 220, 120, 255⟩), (1, ⟨20, 160, 100, 255⟩)] ∧
    (style ≠ "rainbow" → style ≠ "pink" → style ≠ "green" →
      gradStops style = [(0, ⟨80, 200, 255, 255⟩), (1, ⟨150, 120, 255, 255⟩)]) := by
  refine ⟨(mul_div_assoc trackW v 100).symm, ?_, ?_, rfl, ?_, rfl, rfl, ?_, ?_, ?_⟩
  · intro hv
    simp [NeonBar.fillSpec, hv]
  · intro hv
    rw [NeonBar.fillSpec]
    simp [hv]
  · rw [NeonBar.fillSpec]
    simp [mul_div_assoc]
  · simp [gradStops]
  · simp [gradStops]
  · intro n1 n2 n3
    simp [gradStops, n1, n2, n3]

unseal Rat.add Rat.sub Rat.mul Rat.inv Rat.ofScientific in
/-- Witness for C5 at `v = 65`, track width 200, rainbow style: the fill is
130 wide and carries the spectrum stops. -/
theorem gauge_fill_spec_witness :
    (NeonBar.fillSpec 0 0 200 ⟨65, "rainbow", ""⟩).w = 130 ∧
    (NeonBar.fillSpec 0 0 200 ⟨65, "rainbow", ""⟩).stops =
      [(0, ⟨30, 220, 140, 255⟩), (0.5, ⟨255, 200, 60, 255⟩), (1, ⟨255, 90, 80, 255⟩)] := by
  have h := gauge_fill_spec 0 0 200 65 "rainbow" "" (by decide) (by decide)
  revert h
  decide

/-! ### C6 : network throughput has no elapsed-time division -/

unseal Rat.add Rat.sub Rat.mul Rat.inv Rat.ofScientific in
/-- Counterexample to C6 as stated: for a sample taken two seconds after
the previous one with a delta of 2 MiB sent, the code displays 2.0 MB
(`delta/1024/1024`, no division by elapsed time) while the claimed formula
`delta / elapsed_seconds / 1,048,576` yields 1.0 — the displayed value is
not the claimed one whenever the elapsed time differs from one second. -/
theorem net_throughput_claim_false :
    (netSample (some (0, 0)) (2097152, 0) ⟨0, 0⟩).1.up = 2 ∧
    specThroughputMBps (2097152 - 0) 2 = 1 ∧ (2 : ℚ) ≠ 1 := by
  decide

/-- C6 (amended): on a tick with a previous byte sample the displayed
throughput per direction equals `(bytes_now - bytes_previous)/1,048,576` —
the code divides only by `1024*1024` and never by measured elapsed time,
so the value is MB per sampling tick (equal to the claimed MB/s exactly
when one second elapsed, as `specThroughputMBps` with elapsed 1 shows);
with counters `(1,048,576, 10,485,760)` against a previous `(0, 0)` the
display is `up = 1.0, down = 10.0`; on the first tick (no previous sample)
the display is left unchanged and the counters are stored. -/
theorem net_throughput_spec (lb nowb : ℤ × ℤ) (disp : NetDisplay) :
    (netSample (some lb) nowb disp).1.up = ((nowb.1 - lb.1 : ℤ) : ℚ) / 1048576 ∧
    (netSample (some lb) nowb disp).1.down = ((nowb.2 - lb.2 : ℤ) : ℚ) / 1048576 ∧
    (netSample (some lb) nowb disp).2 = some nowb ∧
    (netSample none nowb disp).1 = disp ∧
    (netSample none nowb disp).2 = some nowb ∧
    (netSample (some lb) nowb disp).1.up = specThroughputMBps (nowb.1 - lb.1) 1 ∧
    (netSample (some (0, 0)) (1048576, 10485760) disp).1 = ⟨1, 10⟩ := by
  refine ⟨?_, ?_, rfl, rfl, rfl, ?_, ?_⟩
  · simp only [netSample]
    rw [div_div]
    norm_num
  · simp only [netSample]
    rw [div_div]
    norm_num
  · simp only [netSample, specThroughputMBps]
    rw [div_div, div_one]
    norm_num
  · simp only [netSample]
    refine congrArg₂ NetDisplay.mk ?_ ?_ <;> norm_num

/-! ### C7 : behavior when the stats provider raises -/

unseal Rat.add Rat.sub Rat.mul Rat.inv Rat.ofScientific in
/-- Counterexample to C7 as stated: with every provider call raising, a
synthetic CPU fallback of 30 and a previous CPU gauge value of 65, the
gauge after the cycle shows 30, not the previous 65 — the code substitutes
a fresh synthetic value instead of keeping the prior cycle's value. -/
theorem provider_throw_claim_false :
    (sampleStats ⟨.error (), .error (), .error (), .error (), .error (), .error ()⟩
        ⟨30, 50, 80, 40, 60⟩ ⟨65, 62, 72, 50, 75, 0, 0, none⟩).cpuUtil = 30 ∧
    (⟨65, 62, 72, 50, 75, 0, 0, none⟩ : HudState).cpuUtil = 65 ∧ (30 : ℚ) ≠ 65 := by
  decide

/-- C7 (amended): if every provider call raises on a cycle, `sampleStats`
does not keep the previous gauge values: each gauge is set to the clamp of
its synthetic fallback (CPU, memory, disk directly; temperature through
`temp/100*100`; battery through the pseudo-temperature `60 + batt/100*20`),
so the display stays a valid value in `[0, 100]` with no crash and no null
readout — only the network throughput display and the stored byte counters
keep their previous-cycle contents. -/
theorem provider_throw_fallback (pr : ProviderResult) (fb : Fallbacks) (s : HudState)
    (hcp : pr.cpu = .error ()) (htp : pr.temp = .error ())
    (hbt : pr.battery = .error ()) (hmm : pr.mem = .error ())
    (hdk : pr.disk = .error ()) (hio : pr.netio = .error ()) :
    (sampleStats pr fb s).cpuUtil = clamp fb.cpu 0 100 ∧
    (sampleStats pr fb s).cpuTemp = clamp (fb.temp / 100 * 100) 0 100 ∧
    (sampleStats pr fb s).battery = clamp (60 + fb.batt / 100 * 20) 0 100 ∧
    (sampleStats pr fb s).mem = clamp fb.mem 0 100 ∧
    (sampleStats pr fb s).disk = clamp fb.disk 0 100 ∧
    (sampleStats pr fb s).netUp = s.netUp ∧
    (sampleStats pr fb s).netDown = s.netDown ∧
    (sampleStats pr fb s).lastBytes = s.lastBytes ∧
    (0 ≤ (sampleStats pr fb s).cpuUtil ∧ (sampleStats pr fb s).cpuUtil ≤ 100) ∧
    (0 ≤ (sampleStats pr fb s).cpuTemp ∧ (sampleStats pr fb s).cpuTemp ≤ 100) ∧
    (0 ≤ (sampleStats pr fb s).battery ∧ (sampleStats pr fb s).battery ≤ 100) ∧
    (0 ≤ (sampleStats pr fb s).mem ∧ (sampleStats pr fb s).mem ≤ 100) ∧
    (0 ≤ (sampleStats pr fb s).disk ∧ (sampleStats pr fb s).disk ≤ 100) := by
  obtain ⟨c, t, b, m, d, n⟩ := pr
  simp only at hcp htp hbt hmm hdk hio
  subst hcp htp hbt hmm hdk hio
  exact ⟨rfl, clamp_idem _ 0 100 (by norm_num), clamp_idem _ 0 100 (by norm_num),
    rfl, rfl, rfl, rfl, rfl,
    ⟨clamp_lo_le _ 0 100, clamp_le_hi _ 0 100 (by norm_num)⟩,
    ⟨clamp_lo_le _ 0 100, clamp_le_hi _ 0 100 (by norm_num)⟩,
    ⟨clamp_lo_le _ 0 100, clamp_le_hi _ 0 100 (by norm_num)⟩,
    ⟨clamp_lo_le _ 0 100, clamp_le_hi _ 0 100 (by norm_num)⟩,
    ⟨clamp_lo_le _ 0 100, clamp_le_hi _ 0 100 (by norm_num)⟩⟩

unseal Rat.add Rat.sub Rat.mul Rat.inv Rat.ofScientific in
/-- Witness for the amended C7: all-raising provider, concrete fallbacks
and a concrete prior state — the battery gauge becomes `60 + 80/100*20 =
76` and the network display and counters are untouched. -/
theorem provider_throw_fallback_witness :
    (sampleStats ⟨.error (), .error (), .error (), .error (), .error (), .error ()⟩
        ⟨30, 50, 80, 40, 60⟩ ⟨65, 62, 72, 50, 75, 3, 4, some (7, 9)⟩).battery = 76 ∧
    (sampleStats ⟨.error (), .error (), .error (), .error (), .error (), .error ()⟩
        ⟨30, 50, 80, 40, 60⟩ ⟨65, 62, 72, 50, 75, 3, 4, some (7, 9)⟩).netUp = 3 ∧
    (sampleStats ⟨.error (), .error (), .error (), .error (), .error (), .error ()⟩
        ⟨30, 50, 80, 40, 60⟩ ⟨65, 62, 72, 50, 75, 3, 4, some (7, 9)⟩).lastBytes =
      some (7, 9) := by
  have h := provider_throw_fallback
    ⟨.error (), .error (), .error (), .error (), .error (), .error ()⟩
    ⟨30, 50, 80, 40, 60⟩ ⟨65, 62, 72, 50, 75, 3, 4, some (7, 9)⟩
    rfl rfl rfl rfl rfl rfl
  revert h
  decide

/-! ### C9 : the battery pseudo-temperature formula -/

unseal Rat.add Rat.sub Rat.mul Rat.inv Rat.ofScientific in
/-- Counterexample to C9 as stated: in `nova.py`, with the provider
reporting battery percent 50, the BATTERY gauge stores `clamp(50,0,100) =
50`, not the pseudo-temperature `clamp(60 + 50*0.2, 0, 100) = 70` — the
formula is absent from `nova.py`'s `sampleStats`. -/
theorem battery_formula_claim_false :
    (sampleStatsNova ⟨.ok 10, .ok none, .ok (some 50), .ok 20, .ok 30, .error ()⟩
        ⟨0, 0, 0, 0, 0⟩ ⟨65, 62, 72, 50, 75, 0, 0, none⟩).battery = 50 ∧
    clamp (60 + 50 * 0.2) 0 100 = 70 ∧ (50 : ℚ) ≠ 70 := by
  decide

/-- C9 (amended): when the provider reports battery percent `b`, the
`nov.py` sampling cycle stores `clamp(60 + b*0.2, 0, 100)` in the BATTERY
gauge (the fallback formula verbatim, `60 + b/100*20 = 60 + b*0.2`), while
the `nova.py` cycle stores `clamp(b, 0, 100)` directly — the
pseudo-temperature formula is applied in `nov.py` only. -/
theorem battery_update_spec (pr : ProviderResult) (fb : Fallbacks) (s : HudState)
    (b : ℚ) (hb : pr.battery = .ok (some b)) :
    (sampleStats pr fb s).battery = clamp (60 + b / 100 * 20) 0 100 ∧
    (sampleStatsNova pr fb s).battery = clamp b 0 100 ∧
    60 + b / 100 * 20 = 60 + b * 0.2 := by
  obtain ⟨c, t, bb, m, d, n⟩ := pr
  simp only at hb
  subst hb
  refine ⟨clamp_idem _ 0 100 (by norm_num), clamp_idem _ 0 100 (by norm_num), ?_⟩
  norm_num
  ring

unseal Rat.add Rat.sub Rat.mul Rat.inv Rat.ofScientific in
/-- Witness for the amended C9 at battery percent 50: `nov.py` stores 70,
`nova.py` stores 50. -/
theorem battery_update_spec_witness :
    (sampleStats ⟨.ok 10, .ok none, .ok (some 50), .ok 20, .ok 30, .error ()⟩
        ⟨0, 0, 0, 0, 0⟩ ⟨65, 62, 72, 50, 75, 0, 0, none⟩).battery = 70 ∧
    (sampleStatsNova ⟨.ok 10, .ok none, .ok (some 50), .ok 20, .ok 30, .error ()⟩
        ⟨0, 0, 0, 0, 0⟩ ⟨65, 62, 72, 50, 75, 0, 0, none⟩).battery = 50 := by
  have h := battery_update_spec
    ⟨.ok 10, .ok none, .ok (some 50), .ok 20, .ok 30, .error ()⟩
    ⟨0, 0, 0, 0, 0⟩ ⟨65, 62, 72, 50, 75, 0, 0, none⟩ 50 rfl
  revert h
  decide
